import Mathlib

/-!
# Verification of the phrase-pilot backend adapter layer

Shallow embedding of the repository's core: the four LLM backend adapters
(`OpenAIService`, `HuggingFaceService`, `AzureService`, `LocalLLMService`
from `src/services/LLMService.ts`), the factory (`LLMServiceFactory`),
the configuration model (`src/models/ConfigModel.ts`) and the persistence
collaborator (`src/services/StorageService.ts`).

The HTTP layer is modelled as a mock trace: a list of `FetchResult`s consumed
one per `fetch` call, exactly the shape the spec's testable properties use.
JavaScript runtime values flowing through the adapters are modelled by a
`Json` value type; a JavaScript property read that may be `undefined` is an
`Option Json` (with `none` standing for `undefined`), and an expression whose
evaluation may throw a `TypeError` is an `Except Unit` value.  `JSON.parse`
and `JSON.stringify` are modelled by an executable parser and printer over
`Json` written against the JSON grammar that `JSON.parse` accepts.
-/

set_option maxHeartbeats 1000000

set_option maxRecDepth 100000

/-- The two brace characters, named so they can be used in code and proofs. -/
def lbrace : Char := Char.ofNat 123

/-- Closing brace character. -/
def rbrace : Char := Char.ofNat 125

/-- JSON values as produced by `JSON.parse` / consumed by `JSON.stringify`.
Numbers are modelled as rationals (every JavaScript number that appears in
this code base is one). -/
inductive Json where
  | null : Json
  | bool : Bool → Json
  | num : Rat → Json
  | str : String → Json
  | arr : List Json → Json
  | obj : List (String × Json) → Json

/-- Property lookup on a JavaScript object: with duplicate keys (possible in
parsed JSON text) the last occurrence wins, as in `JSON.parse`. -/
def jsLookup (fields : List (String × Json)) (k : String) : Option Json :=
  (fields.reverse.find? (fun p => p.1 == k)).map (fun p => p.2)

/-- A JavaScript property read `v.k`.  Reading from `undefined` or `null`
throws a `TypeError` (the `Except.error` case); reading a missing property
from any other value yields `undefined` (`Except.ok none`). -/
def jsGetField (v : Option Json) (k : String) : Except Unit (Option Json) :=
  match v with
  | none => Except.error ()
  | some Json.null => Except.error ()
  | some (Json.obj fields) => Except.ok (jsLookup fields k)
  | some _ => Except.ok none

/-- A JavaScript index read `v[i]`.  On arrays this is positional; on plain
objects it reads the string key; on `null`/`undefined` it throws. -/
def jsGetIdx (v : Option Json) (i : Nat) : Except Unit (Option Json) :=
  match v with
  | none => Except.error ()
  | some Json.null => Except.error ()
  | some (Json.arr xs) => Except.ok (xs.get? i)
  | some (Json.obj fields) => Except.ok (jsLookup fields (toString i))
  | some _ => Except.ok none

/-- JavaScript truthiness of a value (with `none` = `undefined`). -/
def jsTruthy : Option Json → Bool
  | none => false
  | some Json.null => false
  | some (Json.bool b) => b
  | some (Json.num q) => decide (q ≠ 0)
  | some (Json.str s) => !s.isEmpty
  | some (Json.arr _) => true
  | some (Json.obj _) => true

/-- Decimal digits of `r / d` (`r < d`), up to the given fuel. -/
def fracDigitsAux : Nat → Nat → Nat → List Char
  | 0, _, _ => []
  | _, 0, _ => []
  | f + 1, r, d =>
    let r10 := r * 10
    Char.ofNat ('0'.toNat + r10 / d) :: fracDigitsAux f (r10 % d) d

/-- Decimal rendering of a rational, approximating how JavaScript prints the
numbers that occur in this code base (all of which have finite decimal
expansions). -/
def ratToString (q : Rat) : String :=
  let n := q.num.natAbs
  let i := n / q.den
  let r := n % q.den
  (if q.num < 0 then "-" else "") ++ toString i ++
    (if r = 0 then "" else "." ++ String.mk (fracDigitsAux 64 r q.den))

/-- String conversion of one array element in `Array.prototype.toString`
(`null`/`undefined` render empty; nested arrays are approximated). -/
def jsArrElemStr : Json → String
  | Json.null => ""
  | Json.bool b => cond b "true" "false"
  | Json.num q => ratToString q
  | Json.str s => s
  | Json.arr _ => ""
  | Json.obj _ => "[object Object]"

/-- JavaScript `String(v)` coercion, as applied by `JSON.parse` to a
non-string argument. -/
def jsToString : Option Json → String
  | none => "undefined"
  | some Json.null => "null"
  | some (Json.bool b) => cond b "true" "false"
  | some (Json.num q) => ratToString q
  | some (Json.str s) => s
  | some (Json.arr xs) => String.intercalate "," (xs.map jsArrElemStr)
  | some (Json.obj _) => "[object Object]"

/-! ## The JSON parser (model of `JSON.parse`) -/

/-- JSON insignificant whitespace. -/
def jsonWs (c : Char) : Bool := c = ' ' || c = '\t' || c = '\n' || c = '\r'

/-- Drop leading JSON whitespace. -/
def skipWs (cs : List Char) : List Char := cs.dropWhile jsonWs

/-- Decimal digit test (code points 48 through 57). -/
def isDigit (c : Char) : Bool :=
  48 ≤ c.toNat && c.toNat ≤ 57

/-- Value of a decimal digit. -/
def digitVal (c : Char) : Nat := c.toNat - 48

/-- Value of a big-endian list of decimal digits. -/
def digitsVal (ds : List Char) : Nat :=
  ds.foldl (fun acc c => 10 * acc + digitVal c) 0

/-- Value of a hexadecimal digit, if the character is one (digits, then the
two letter ranges by code point). -/
def hexVal (c : Char) : Option Nat :=
  let n := c.toNat
  if isDigit c then some (n - 48)
  else if 97 ≤ n && n ≤ 102 then some (n - 87)
  else if 65 ≤ n && n ≤ 70 then some (n - 55)
  else none

/-- Value of a four-character hexadecimal escape. -/
def hex4 (a b c d : Char) : Option Nat :=
  match hexVal a, hexVal b, hexVal c, hexVal d with
  | some x, some y, some z, some w => some (((x * 16 + y) * 16 + z) * 16 + w)
  | _, _, _, _ => none

/-- The character denoted by a one-character JSON string escape. -/
def simpleEscape (e : Char) : Option Char :=
  if e = '"' then some '"'
  else if e = '\\' then some '\\'
  else if e = '/' then some '/'
  else if e = 'b' then some (Char.ofNat 8)
  else if e = 'f' then some (Char.ofNat 12)
  else if e = 'n' then some '\n'
  else if e = 'r' then some '\r'
  else if e = 't' then some '\t'
  else none

/-- Parse the body of a JSON string (after the opening quote) up to and
including the closing quote; returns the decoded characters and the rest.
Unescaped control characters are rejected, as by `JSON.parse`. -/
def parseStringBody : List Char → Option (List Char × List Char)
  | [] => none
  | c :: cs =>
    if c = '"' then some ([], cs)
    else if c = '\\' then
      match cs with
      | 'u' :: h1 :: h2 :: h3 :: h4 :: cs2 =>
        match hex4 h1 h2 h3 h4 with
        | some n => (parseStringBody cs2).map (fun p => (Char.ofNat n :: p.1, p.2))
        | none => none
      | e :: cs2 =>
        match simpleEscape e with
        | some d => (parseStringBody cs2).map (fun p => (d :: p.1, p.2))
        | none => none
      | [] => none
    else if c.toNat < 32 then none
    else (parseStringBody cs).map (fun p => (c :: p.1, p.2))

/-- Parse an optional JSON fraction part; `some (digits, rest)`. -/
def parseFrac : List Char → Option (List Char × List Char)
  | [] => some ([], [])
  | c :: rest =>
    if c = '.' then
      let ds := rest.takeWhile isDigit
      if ds.isEmpty then none else some (ds, rest.dropWhile isDigit)
    else some ([], c :: rest)

/-- Parse an optional JSON exponent part; `some (value, rest)`. -/
def parseExpPart : List Char → Option (Int × List Char)
  | [] => some (0, [])
  | c :: rest =>
    if c = 'e' || c = 'E' then
      match rest with
      | s :: rest2 =>
        if s = '+' then
          let ds := rest2.takeWhile isDigit
          if ds.isEmpty then none else some ((digitsVal ds : Int), rest2.dropWhile isDigit)
        else if s = '-' then
          let ds := rest2.takeWhile isDigit
          if ds.isEmpty then none else some (-(digitsVal ds : Int), rest2.dropWhile isDigit)
        else
          let ds := rest.takeWhile isDigit
          if ds.isEmpty then none else some ((digitsVal ds : Int), rest.dropWhile isDigit)
      | [] => none
    else some (0, c :: rest)

/-- Parse a JSON number (with the JSON grammar's leading-zero rule). -/
def parseNumber (cs : List Char) : Option (Json × List Char) :=
  let signed := match cs with
    | c :: rest => if c = '-' then (true, rest) else (false, cs)
    | [] => (false, cs)
  let neg := signed.1
  let cs1 := signed.2
  let intDs := cs1.takeWhile isDigit
  if intDs.isEmpty then none
  else if intDs.length > 1 && intDs.head? = some '0' then none
  else
    match parseFrac (cs1.dropWhile isDigit) with
    | none => none
    | some (fracDs, cs2) =>
      match parseExpPart cs2 with
      | none => none
      | some (e, cs3) =>
        let mag : Rat :=
          ((digitsVal intDs : Rat) + (digitsVal fracDs : Rat) / ((10 : Rat) ^ fracDs.length)) *
            (10 : Rat) ^ e
        some (Json.num (if neg then -mag else mag), cs3)

mutual

/-- Parse one JSON value, consuming leading whitespace. -/
def parseValue : Nat → List Char → Option (Json × List Char)
  | 0, _ => none
  | fuel + 1, cs =>
    match skipWs cs with
    | [] => none
    | c :: rest =>
      if c = lbrace then
        match skipWs rest with
        | [] => none
        | c2 :: rest2 =>
          if c2 = rbrace then some (Json.obj [], rest2)
          else (parseMembers fuel (c2 :: rest2)).map (fun p => (Json.obj p.1, p.2))
      else if c = '[' then
        match skipWs rest with
        | [] => none
        | c2 :: rest2 =>
          if c2 = ']' then some (Json.arr [], rest2)
          else (parseItems fuel (c2 :: rest2)).map (fun p => (Json.arr p.1, p.2))
      else if c = '"' then
        (parseStringBody rest).map (fun p => (Json.str (String.mk p.1), p.2))
      else if c = 't' then
        match rest with
        | 'r' :: 'u' :: 'e' :: r => some (Json.bool true, r)
        | _ => none
      else if c = 'f' then
        match rest with
        | 'a' :: 'l' :: 's' :: 'e' :: r => some (Json.bool false, r)
        | _ => none
      else if c = 'n' then
        match rest with
        | 'u' :: 'l' :: 'l' :: r => some (Json.null, r)
        | _ => none
      else parseNumber (c :: rest)

/-- Parse a non-empty member list of a JSON object, up to and including the
closing brace. -/
def parseMembers : Nat → List Char → Option (List (String × Json) × List Char)
  | 0, _ => none
  | fuel + 1, cs =>
    match skipWs cs with
    | [] => none
    | c :: rest =>
      if c = '"' then
        match parseStringBody rest with
        | none => none
        | some (kcs, rest1) =>
          match skipWs rest1 with
          | [] => none
          | c1 :: rest2 =>
            if c1 = ':' then
              match parseValue fuel rest2 with
              | none => none
              | some (v, rest3) =>
                match skipWs rest3 with
                | [] => none
                | c2 :: rest4 =>
                  if c2 = ',' then
                    (parseMembers fuel rest4).map
                      (fun p => ((String.mk kcs, v) :: p.1, p.2))
                  else if c2 = rbrace then some ([(String.mk kcs, v)], rest4)
                  else none
            else none
      else none

/-- Parse a non-empty item list of a JSON array, up to and including the
closing bracket. -/
def parseItems : Nat → List Char → Option (List Json × List Char)
  | 0, _ => none
  | fuel + 1, cs =>
    match parseValue fuel cs with
    | none => none
    | some (v, rest) =>
      match skipWs rest with
      | [] => none
      | c :: rest2 =>
        if c = ',' then (parseItems fuel rest2).map (fun p => (v :: p.1, p.2))
        else if c = ']' then some ([v], rest2)
        else none

end

/-- Model of `JSON.parse`: `none` models the `SyntaxError` throw. -/
def jsonParse (s : String) : Option Json :=
  match parseValue (s.data.length + 1) s.data with
  | none => none
  | some (v, rest) => if (skipWs rest).isEmpty then some v else none

/-! ## The JSON printer (model of `JSON.stringify`) -/

/-- One printed hexadecimal digit. -/
def hexDigit (n : Nat) : Char :=
  if n < 10 then Char.ofNat ('0'.toNat + n) else Char.ofNat ('a'.toNat + n - 10)

/-- The characters `JSON.stringify` emits for one string character. -/
def escapeChar (c : Char) : List Char :=
  if c = '"' then ['\\', '"']
  else if c = '\\' then ['\\', '\\']
  else if c = Char.ofNat 8 then ['\\', 'b']
  else if c = Char.ofNat 12 then ['\\', 'f']
  else if c = '\n' then ['\\', 'n']
  else if c = '\r' then ['\\', 'r']
  else if c = '\t' then ['\\', 't']
  else if c.toNat < 32 then
    ['\\', 'u', '0', '0', hexDigit (c.toNat / 16), hexDigit (c.toNat % 16)]
  else [c]

/-- `JSON.stringify` escaping of a whole string body. -/
def escapeChars (cs : List Char) : List Char := cs.flatMap escapeChar

/-- The characters of a printed (quoted, escaped) JSON string. -/
def strChars (s : String) : List Char := '"' :: escapeChars s.data ++ ['"']

mutual

/-- Characters emitted by `JSON.stringify` for a value. -/
def jsonChars : Json → List Char
  | Json.null => ['n', 'u', 'l', 'l']
  | Json.bool true => ['t', 'r', 'u', 'e']
  | Json.bool false => ['f', 'a', 'l', 's', 'e']
  | Json.num q => (ratToString q).data
  | Json.str s => strChars s
  | Json.arr xs => '[' :: jsonCharsItems xs ++ [']']
  | Json.obj fs => lbrace :: jsonCharsFields fs ++ [rbrace]

/-- Comma-separated printed items of an array. -/
def jsonCharsItems : List Json → List Char
  | [] => []
  | [x] => jsonChars x
  | x :: xs => jsonChars x ++ ',' :: jsonCharsItems xs

/-- Comma-separated printed members of an object. -/
def jsonCharsFields : List (String × Json) → List Char
  | [] => []
  | [(k, v)] => strChars k ++ ':' :: jsonChars v
  | (k, v) :: fs => strChars k ++ ':' :: jsonChars v ++ ',' :: jsonCharsFields fs

end

/-- Model of `JSON.stringify`. -/
def jsonStringify (j : Json) : String := String.mk (jsonChars j)

/-! ## Configuration model (`src/models/ConfigModel.ts`)

`LLMProvider` is a TypeScript string enum, so at runtime a provider is its
string value; the enum members are modelled as named string constants. -/

/-- `LLMProvider.OpenAI = "OpenAI"`. -/
def LLMProvider.OpenAI : String := "OpenAI"

/-- `LLMProvider.HuggingFace = "Hugging Face"`. -/
def LLMProvider.HuggingFace : String := "Hugging Face"

/-- `LLMProvider.Azure = "Azure"`. -/
def LLMProvider.Azure : String := "Azure"

/-- `LLMProvider.Local = "Local"`. -/
def LLMProvider.Local : String := "Local"

/-- The `LLMConfig` interface. -/
structure LLMConfig where
  provider : String
  apiUrl : String
  apiKey : String
  modelName : String
  isConfigured : Bool
deriving DecidableEq

/-- The `defaultConfig` constant. -/
def defaultConfig : LLMConfig :=
  { provider := LLMProvider.OpenAI
    apiUrl := "https://api.openai.com/v1"
    apiKey := ""
    modelName := "gpt-4o-mini"
    isConfigured := false }

/-- The `LLMResponse` interface.  `rephrased` is declared `string` in the
source, but at runtime the adapters can store `undefined` (a missed property
read) or another non-string value in it, so it is modelled as an
`Option Json` with `none` for `undefined`. -/
structure LLMResponse where
  rephrased : Option Json
  error : Option String

/-! ## HTTP layer model

Each `fetch` call consumes one `FetchResult` from a mock trace.  `ok` carries
the response status, headers and raw body text (`response.json()` parses the
body); `err` models the fetch promise rejecting with the given message.
A trace that runs out before the adapter's next `fetch` makes the adapter
functions return `none`; every claim quantifies over traces long enough for
the call to complete. -/

/-- One issued HTTP request: URL, method, headers, and the JSON value whose
serialization is the request body (if any). -/
structure HttpRequest where
  url : String
  method : String
  headers : List (String × String)
  body : Option Json

/-- One mocked HTTP outcome. -/
inductive FetchResult where
  | ok : Nat → List (String × String) → String → FetchResult
  | err : String → FetchResult

/-- `response.ok`: status in the inclusive range 200–299. -/
def responseOk (status : Nat) : Bool := 200 ≤ status && status ≤ 299

/-- ASCII lower-casing of one character (header names are ASCII). -/
def charLower (c : Char) : Char :=
  if 'A' ≤ c && c ≤ 'Z' then Char.ofNat (c.toNat + 32) else c

/-- Case-insensitive string comparison over the characters. -/
def eqCaseInsensitive (a b : String) : Bool :=
  a.data.map charLower == b.data.map charLower

/-- `response.headers.get`, which is case-insensitive. -/
def getHeader (headers : List (String × String)) (k : String) : Option String :=
  (headers.find? (fun p => eqCaseInsensitive p.1 k)).map (fun p => p.2)

/-- JavaScript `parseInt(s, 10)`: skip leading whitespace, optional sign,
then the longest prefix of decimal digits; `none` models `NaN`. -/
def jsParseInt (s : String) : Option Int :=
  let cs := s.data.dropWhile jsonWs
  match cs with
  | c :: rest =>
    if c = '-' then
      let ds := rest.takeWhile isDigit
      if ds.isEmpty then none else some (-(digitsVal ds : Int))
    else if c = '+' then
      let ds := rest.takeWhile isDigit
      if ds.isEmpty then none else some ((digitsVal ds : Int))
    else
      let ds := cs.takeWhile isDigit
      if ds.isEmpty then none else some ((digitsVal ds : Int))
  | [] => none

/-- The `options` bag of `rephrase`; the single recognized key. -/
structure RephraseOptions where
  temperature : Option Rat
deriving DecidableEq

/-- `options?.temperature ?? 0.5`. -/
def tempOf (options : Option RephraseOptions) : Rat :=
  match options with
  | some o => o.temperature.getD (1 / 2)
  | none => 1 / 2

/-- The outcome of one `rephrase` call against a mock trace: the returned
`LLMResponse`, the requests issued (in order), and the milliseconds slept
(in order, one entry per rate-limit backoff). -/
structure RephraseOutcome where
  response : LLMResponse
  requests : List HttpRequest
  delays : List Nat

/-- The outcome of one `listModels` call: the returned model list (elements
are JavaScript values, `none` standing for `undefined`) and the requests
issued. -/
structure ListModelsOutcome where
  models : List (Option Json)
  requests : List HttpRequest

/-- Error message of the modelled `SyntaxError` thrown by `JSON.parse` /
`response.json()` on malformed text (the exact engine text is irrelevant;
only its presence matters). -/
def jsonErrorMessage : String := "Unexpected token in JSON"

/-- Error message of the modelled `TypeError` thrown by a property read on
`undefined` or `null`. -/
def typeErrorMessage : String := "Cannot read properties of undefined"

/-! ## Response content extraction -/

/-- `data.choices[0].message.content` for the OpenAI-compatible and Azure
response shape; `Except.error` models the read throwing. -/
def chatContent (data : Json) : Except Unit (Option Json) := do
  let c ← jsGetField (some data) "choices"
  let e ← jsGetIdx c 0
  let m ← jsGetField e "message"
  jsGetField m "content"

/-- The inner `try { JSON.parse(content); return {rephrased: ...} } catch`
of `OpenAIService.rephrase` and `AzureService.rephrase`: parse the content,
read its `rephrased` property; on any throw fall back to the raw content. -/
def chatExtract (content : Option Json) : LLMResponse :=
  match jsonParse (jsToString content) with
  | some p =>
    match jsGetField (some p) "rephrased" with
    | Except.ok r => { rephrased := r, error := none }
    | Except.error _ => { rephrased := content, error := none }
  | none => { rephrased := content, error := none }

/-- First `\x7b...\x7d` regex match of `content.match(/\x7b.*\x7d/s)`:
from the first opening brace to the last closing brace of the string, if the
latter comes after the former. -/
def braceSubstring (s : String) : Option String :=
  let cs := s.data
  match cs.findIdx? (fun c => c = lbrace), (cs.reverse.findIdx? (fun c => c = rbrace)) with
  | some i, some k =>
    let j := cs.length - 1 - k
    if i < j then some (String.mk ((cs.drop i).take (j - i + 1))) else none
  | _, _ => none

/-- The inner `try`/`catch` of `HuggingFaceService.rephrase`: search the
content for a brace-delimited substring, parse it, and read `rephrased`;
on no match, parse failure, or a throw, fall back to the raw content.
A non-string content makes `content.match` throw, which the same inner
`catch` turns into the raw-content fallback as well. -/
def hfExtract (content : Option Json) : LLMResponse :=
  match content with
  | some (Json.str s) =>
    (match braceSubstring s with
     | some m =>
       match jsonParse m with
       | some p =>
         match jsGetField (some p) "rephrased" with
         | Except.ok r => { rephrased := r, error := none }
         | Except.error _ => { rephrased := some (Json.str s), error := none }
       | none => { rephrased := some (Json.str s), error := none }
     | none => { rephrased := some (Json.str s), error := none })
  | c => { rephrased := c, error := none }

/-- The inner `try`/`catch` of `LocalLLMService.rephrase` — the same code,
duplicated in the source, as `hfExtract`. -/
def localExtract (content : Option Json) : LLMResponse :=
  match content with
  | some (Json.str s) =>
    (match braceSubstring s with
     | some m =>
       match jsonParse m with
       | some p =>
         match jsGetField (some p) "rephrased" with
         | Except.ok r => { rephrased := r, error := none }
         | Except.error _ => { rephrased := some (Json.str s), error := none }
       | none => { rephrased := some (Json.str s), error := none }
     | none => { rephrased := some (Json.str s), error := none })
  | c => { rephrased := c, error := none }

/-- `data[0].generated_text` for the HuggingFace response shape. -/
def hfContent (data : Json) : Except Unit (Option Json) := do
  let e ← jsGetIdx (some data) 0
  jsGetField e "generated_text"

/-- `data.response || data.output || data.generated_text || ""` for the
Local response shape, with JavaScript short-circuit truthiness. -/
def localContent (data : Json) : Except Unit (Option Json) :=
  match jsGetField (some data) "response" with
  | Except.error e => Except.error e
  | Except.ok r =>
    if jsTruthy r then Except.ok r
    else
      match jsGetField (some data) "output" with
      | Except.error e => Except.error e
      | Except.ok o =>
        if jsTruthy o then Except.ok o
        else
          match jsGetField (some data) "generated_text" with
          | Except.error e => Except.error e
          | Except.ok g => Except.ok (if jsTruthy g then g else some (Json.str ""))

/-! ## The four adapter services (`src/services/LLMService.ts`) -/

/-- The system instruction of the chat-based variants. -/
def chatSystemInstruction : String :=
  "You are a rephrase assistant. Rephrase the user's input while preserving meaning and tone. Return only valid JSON in the form \x7b\"rephrased\":\"...\"\x7d."

/-- The combined prompt instruction of the prompt-based variants. -/
def promptInstruction : String :=
  "You are a rephrase assistant. Rephrase the following text while preserving its meaning and tone. Return only valid JSON in the format \x7b\"rephrased\":\"...\"\x7d:\n\n"

/-- The request `OpenAIService.rephrase` issues. -/
def OpenAIService.request (config : LLMConfig) (text : String)
    (options : Option RephraseOptions) : HttpRequest :=
  { url := config.apiUrl ++ "/chat/completions"
    method := "POST"
    headers := [("Authorization", "Bearer " ++ config.apiKey),
                ("Content-Type", "application/json")]
    body := some (Json.obj
      [("model", Json.str config.modelName),
       ("messages", Json.arr
         [Json.obj [("role", Json.str "system"), ("content", Json.str chatSystemInstruction)],
          Json.obj [("role", Json.str "user"), ("content", Json.str text)]]),
       ("temperature", Json.num (tempOf options)),
       ("response_format", Json.obj [("type", Json.str "json_object")])]) }

/-- Milliseconds slept by the 429 backoff:
`parseInt(headers.get('Retry-After') || '5', 10) * 1000`, with `NaN` and
negative arguments to `setTimeout` behaving as zero delay. -/
def retryDelayMs (headers : List (String × String)) : Nat :=
  match jsParseInt ((getHeader headers "Retry-After").getD "5") with
  | some n => (n * 1000).toNat
  | none => 0

/-- `OpenAIService.rephrase`: POST to `/chat/completions`; on 429, sleep per
`Retry-After` and re-issue the identical request against the rest of the
trace; on any other non-success status or a network error, return an error
result; on success, extract the first choice's message content. -/
def OpenAIService.rephrase (config : LLMConfig) (text : String)
    (options : Option RephraseOptions) : List FetchResult → Option RephraseOutcome
  | [] => none
  | fr :: rest =>
    let req := OpenAIService.request config text options
    match fr with
    | FetchResult.err msg =>
      some ⟨{ rephrased := some (Json.str ""), error := some msg }, [req], []⟩
    | FetchResult.ok status headers body =>
      if responseOk status then
        match jsonParse body with
        | none =>
          some ⟨{ rephrased := some (Json.str ""), error := some jsonErrorMessage }, [req], []⟩
        | some data =>
          match chatContent data with
          | Except.error _ =>
            some ⟨{ rephrased := some (Json.str ""), error := some typeErrorMessage }, [req], []⟩
          | Except.ok content => some ⟨chatExtract content, [req], []⟩
      else if status = 429 then
        (OpenAIService.rephrase config text options rest).map
          (fun o => ⟨o.response, req :: o.requests, retryDelayMs headers :: o.delays⟩)
      else
        some ⟨{ rephrased := some (Json.str ""),
                error := some ("API error: " ++ toString status) }, [req], []⟩

/-- The request `OpenAIService.listModels` issues. -/
def OpenAIService.listRequest (config : LLMConfig) : HttpRequest :=
  { url := config.apiUrl ++ "/models"
    method := "GET"
    headers := [("Authorization", "Bearer " ++ config.apiKey),
                ("Content-Type", "application/json")]
    body := none }

/-- `model.id` for each element of an array; an element on which the read
throws (e.g. `null`) aborts the whole `map` with a throw. -/
def mapField (xs : List Json) (k : String) : Except Unit (List (Option Json)) :=
  match xs with
  | [] => Except.ok []
  | x :: rest => do
    let v ← jsGetField (some x) k
    let vs ← mapField rest k
    Except.ok (v :: vs)

/-- `OpenAIService.listModels`: GET `/models`, return `data.data.map(m => m.id)`;
any failure is caught and becomes the empty list. -/
def OpenAIService.listModels (config : LLMConfig) : List FetchResult → Option ListModelsOutcome
  | [] => none
  | fr :: _ =>
    let req := OpenAIService.listRequest config
    match fr with
    | FetchResult.err _ => some ⟨[], [req]⟩
    | FetchResult.ok status _ body =>
      if responseOk status then
        match jsonParse body with
        | none => some ⟨[], [req]⟩
        | some data =>
          match jsGetField (some data) "data" with
          | Except.error _ => some ⟨[], [req]⟩
          | Except.ok v =>
            match v with
            | some (Json.arr xs) =>
              match mapField xs "id" with
              | Except.ok ids => some ⟨ids, [req]⟩
              | Except.error _ => some ⟨[], [req]⟩
            | _ => some ⟨[], [req]⟩
      else some ⟨[], [req]⟩

/-- The fixed recommended-model list returned by `HuggingFaceService.listModels`. -/
def hfRecommendedModels : List (Option Json) :=
  [some (Json.str "meta-llama/Meta-Llama-3-8B"),
   some (Json.str "meta-llama/Meta-Llama-3-70B"),
   some (Json.str "mistralai/Mistral-7B-Instruct-v0.2"),
   some (Json.str "mistralai/Mixtral-8x7B-Instruct-v0.1"),
   some (Json.str "google/gemma-7b"),
   some (Json.str "google/gemma-2b"),
   some (Json.str "facebook/opt-6.7b")]

/-- `HuggingFaceService.listModels`: returns the fixed recommended list,
performing no network call at all. -/
def HuggingFaceService.listModels (_config : LLMConfig)
    (_trace : List FetchResult) : Option ListModelsOutcome :=
  some ⟨hfRecommendedModels, []⟩

/-- The request `HuggingFaceService.rephrase` issues. -/
def HuggingFaceService.request (config : LLMConfig) (text : String)
    (options : Option RephraseOptions) : HttpRequest :=
  { url := config.apiUrl
    method := "POST"
    headers := [("Authorization", "Bearer " ++ config.apiKey),
                ("Content-Type", "application/json")]
    body := some (Json.obj
      [("inputs", Json.str ("<s>[INST]" ++ promptInstruction ++ text ++ "[/INST]</s>")),
       ("parameters", Json.obj
         [("temperature", Json.num (tempOf options)),
          ("max_new_tokens", Json.num 512),
          ("return_full_text", Json.bool false)])]) }

/-- `HuggingFaceService.rephrase`: POST to the endpoint itself; no retry on
any status; on success, extract `data[0].generated_text` and search it for a
brace-delimited JSON object. -/
def HuggingFaceService.rephrase (config : LLMConfig) (text : String)
    (options : Option RephraseOptions) : List FetchResult → Option RephraseOutcome
  | [] => none
  | fr :: _ =>
    let req := HuggingFaceService.request config text options
    match fr with
    | FetchResult.err msg =>
      some ⟨{ rephrased := some (Json.str ""), error := some msg }, [req], []⟩
    | FetchResult.ok status _ body =>
      if responseOk status then
        match jsonParse body with
        | none =>
          some ⟨{ rephrased := some (Json.str ""), error := some jsonErrorMessage }, [req], []⟩
        | some data =>
          match hfContent data with
          | Except.error _ =>
            some ⟨{ rephrased := some (Json.str ""), error := some typeErrorMessage }, [req], []⟩
          | Except.ok content => some ⟨hfExtract content, [req], []⟩
      else
        some ⟨{ rephrased := some (Json.str ""),
                error := some ("API error: " ++ toString status) }, [req], []⟩

/-- The pinned Azure api-version. -/
def azureApiVersion : String := "2023-05-15"

/-- The request `AzureService.rephrase` issues: the deployments path with the
pinned api-version, the `api-key` header, and a body without a `model` field
(the deployment is named in the URL instead). -/
def AzureService.request (config : LLMConfig) (text : String)
    (options : Option RephraseOptions) : HttpRequest :=
  { url := config.apiUrl ++ "/openai/deployments/" ++ config.modelName ++
      "/chat/completions?api-version=" ++ azureApiVersion
    method := "POST"
    headers := [("api-key", config.apiKey), ("Content-Type", "application/json")]
    body := some (Json.obj
      [("messages", Json.arr
         [Json.obj [("role", Json.str "system"), ("content", Json.str chatSystemInstruction)],
          Json.obj [("role", Json.str "user"), ("content", Json.str text)]]),
       ("temperature", Json.num (tempOf options)),
       ("response_format", Json.obj [("type", Json.str "json_object")])]) }

/-- `AzureService.rephrase`: like the OpenAI-compatible success/error
handling, but with the Azure request and no 429 retry. -/
def AzureService.rephrase (config : LLMConfig) (text : String)
    (options : Option RephraseOptions) : List FetchResult → Option RephraseOutcome
  | [] => none
  | fr :: _ =>
    let req := AzureService.request config text options
    match fr with
    | FetchResult.err msg =>
      some ⟨{ rephrased := some (Json.str ""), error := some msg }, [req], []⟩
    | FetchResult.ok status _ body =>
      if responseOk status then
        match jsonParse body with
        | none =>
          some ⟨{ rephrased := some (Json.str ""), error := some jsonErrorMessage }, [req], []⟩
        | some data =>
          match chatContent data with
          | Except.error _ =>
            some ⟨{ rephrased := some (Json.str ""), error := some typeErrorMessage }, [req], []⟩
          | Except.ok content => some ⟨chatExtract content, [req], []⟩
      else
        some ⟨{ rephrased := some (Json.str ""),
                error := some ("API error: " ++ toString status) }, [req], []⟩

/-- The request `AzureService.listModels` issues. -/
def AzureService.listRequest (config : LLMConfig) : HttpRequest :=
  { url := config.apiUrl ++ "/openai/deployments?api-version=" ++ azureApiVersion
    method := "GET"
    headers := [("api-key", config.apiKey), ("Content-Type", "application/json")]
    body := none }

/-- `AzureService.listModels`: GET the deployments path, return
`data.value.map(m => m.id)`; any failure becomes the empty list. -/
def AzureService.listModels (config : LLMConfig) : List FetchResult → Option ListModelsOutcome
  | [] => none
  | fr :: _ =>
    let req := AzureService.listRequest config
    match fr with
    | FetchResult.err _ => some ⟨[], [req]⟩
    | FetchResult.ok status _ body =>
      if responseOk status then
        match jsonParse body with
        | none => some ⟨[], [req]⟩
        | some data =>
          match jsGetField (some data) "value" with
          | Except.error _ => some ⟨[], [req]⟩
          | Except.ok v =>
            match v with
            | some (Json.arr xs) =>
              match mapField xs "id" with
              | Except.ok ids => some ⟨ids, [req]⟩
              | Except.error _ => some ⟨[], [req]⟩
            | _ => some ⟨[], [req]⟩
      else some ⟨[], [req]⟩

/-- The request `LocalLLMService.rephrase` issues (no auth header). -/
def LocalLLMService.request (config : LLMConfig) (text : String)
    (options : Option RephraseOptions) : HttpRequest :=
  { url := config.apiUrl ++ "/generate"
    method := "POST"
    headers := [("Content-Type", "application/json")]
    body := some (Json.obj
      [("model", Json.str config.modelName),
       ("prompt", Json.str (promptInstruction ++ text)),
       ("temperature", Json.num (tempOf options)),
       ("max_tokens", Json.num 512)]) }

/-- `LocalLLMService.rephrase`: POST to `/generate`; no retry; on success
pick the first truthy of three response fields and run the same
brace-substring extraction as the HuggingFace variant. -/
def LocalLLMService.rephrase (config : LLMConfig) (text : String)
    (options : Option RephraseOptions) : List FetchResult → Option RephraseOutcome
  | [] => none
  | fr :: _ =>
    let req := LocalLLMService.request config text options
    match fr with
    | FetchResult.err msg =>
      some ⟨{ rephrased := some (Json.str ""), error := some msg }, [req], []⟩
    | FetchResult.ok status _ body =>
      if responseOk status then
        match jsonParse body with
        | none =>
          some ⟨{ rephrased := some (Json.str ""), error := some jsonErrorMessage }, [req], []⟩
        | some data =>
          match localContent data with
          | Except.error _ =>
            some ⟨{ rephrased := some (Json.str ""), error := some typeErrorMessage }, [req], []⟩
          | Except.ok content => some ⟨localExtract content, [req], []⟩
      else
        some ⟨{ rephrased := some (Json.str ""),
                error := some ("API error: " ++ toString status) }, [req], []⟩

/-- The request `LocalLLMService.listModels` issues (GET with no headers). -/
def LocalLLMService.listRequest (config : LLMConfig) : HttpRequest :=
  { url := config.apiUrl ++ "/models", method := "GET", headers := [], body := none }

/-- `LocalLLMService.listModels`: GET `/models`; an array body is returned
as-is, any other body — and any failure — yields the one-element list
`[config.modelName]`. -/
def LocalLLMService.listModels (config : LLMConfig) : List FetchResult → Option ListModelsOutcome
  | [] => none
  | fr :: _ =>
    let req := LocalLLMService.listRequest config
    match fr with
    | FetchResult.err _ => some ⟨[some (Json.str config.modelName)], [req]⟩
    | FetchResult.ok status _ body =>
      if responseOk status then
        match jsonParse body with
        | some (Json.arr xs) => some ⟨xs.map some, [req]⟩
        | some _ => some ⟨[some (Json.str config.modelName)], [req]⟩
        | none => some ⟨[some (Json.str config.modelName)], [req]⟩
      else some ⟨[some (Json.str config.modelName)], [req]⟩

/-! ## The factory (`LLMServiceFactory.createService`) -/

/-- The adapter interface: the two operations, closed over a configuration,
against a mock HTTP trace. -/
structure LLMService where
  listModels : List FetchResult → Option ListModelsOutcome
  rephrase : String → Option RephraseOptions → List FetchResult → Option RephraseOutcome

/-- The `OpenAIService` adapter as an `LLMService`. -/
def OpenAIService (config : LLMConfig) : LLMService :=
  ⟨OpenAIService.listModels config, fun text options => OpenAIService.rephrase config text options⟩

/-- The `HuggingFaceService` adapter as an `LLMService`. -/
def HuggingFaceService (config : LLMConfig) : LLMService :=
  ⟨HuggingFaceService.listModels config, fun text options => HuggingFaceService.rephrase config text options⟩

/-- The `AzureService` adapter as an `LLMService`. -/
def AzureService (config : LLMConfig) : LLMService :=
  ⟨AzureService.listModels config, fun text options => AzureService.rephrase config text options⟩

/-- The `LocalLLMService` adapter as an `LLMService`. -/
def LocalLLMService (config : LLMConfig) : LLMService :=
  ⟨LocalLLMService.listModels config, fun text options => LocalLLMService.rephrase config text options⟩

/-- `LLMServiceFactory.createService`: select the adapter by exact match on
`config.provider` (a `switch` over the string enum), defaulting to the
OpenAI-compatible adapter. -/
def LLMServiceFactory.createService (config : LLMConfig) : LLMService :=
  if config.provider = LLMProvider.OpenAI then OpenAIService config
  else if config.provider = LLMProvider.HuggingFace then HuggingFaceService config
  else if config.provider = LLMProvider.Azure then AzureService config
  else if config.provider = LLMProvider.Local then LocalLLMService config
  else OpenAIService config

/-! ## The persistence collaborator (`src/services/StorageService.ts`)

`localStorage` under the single fixed key is modelled as an `Option String`
(the stored text, if any). -/

/-- The JavaScript object stored for a configuration, as a `Json` value
(field order is the interface declaration order). -/
def configToJson (c : LLMConfig) : Json :=
  Json.obj
    [("provider", Json.str c.provider),
     ("apiUrl", Json.str c.apiUrl),
     ("apiKey", Json.str c.apiKey),
     ("modelName", Json.str c.modelName),
     ("isConfigured", Json.bool c.isConfigured)]

/-- The `JSON.parse(stored) as LLMConfig` cast performs no validation; the
consumers read the five fields off the parsed object.  A missing or
non-string field read yields `undefined`, modelled by the defaults (never
reached on a round trip). -/
def jsonAsConfig (j : Json) : LLMConfig :=
  { provider := (match jsGetField (some j) "provider" with
      | Except.ok (some (Json.str s)) => s
      | _ => "")
    apiUrl := (match jsGetField (some j) "apiUrl" with
      | Except.ok (some (Json.str s)) => s
      | _ => "")
    apiKey := (match jsGetField (some j) "apiKey" with
      | Except.ok (some (Json.str s)) => s
      | _ => "")
    modelName := (match jsGetField (some j) "modelName" with
      | Except.ok (some (Json.str s)) => s
      | _ => "")
    isConfigured := (match jsGetField (some j) "isConfigured" with
      | Except.ok (some (Json.bool b)) => b
      | _ => false) }

/-- `StorageService.saveConfig`:
`localStorage.setItem(CONFIG_KEY, JSON.stringify(config))`. -/
def StorageService.saveConfig (config : LLMConfig) (_store : Option String) : Option String :=
  some (jsonStringify (configToJson config))

/-- `StorageService.getConfig`: a missing or empty stored string (both falsy)
yields `defaultConfig`; a stored string that fails to parse is caught and
yields `defaultConfig`; otherwise the parsed object is cast to `LLMConfig`. -/
def StorageService.getConfig (store : Option String) : LLMConfig :=
  match store with
  | none => defaultConfig
  | some s =>
    if s.isEmpty then defaultConfig
    else
      match jsonParse s with
      | some j => jsonAsConfig j
      | none => defaultConfig

/-! ## Concrete values used by the verification -/

/-- A concrete configuration for concrete traces. -/
def demoConfig : LLMConfig :=
  ⟨LLMProvider.OpenAI, "https://api.openai.com/v1", "sk-demo", "gpt-4o-mini", true⟩

/-- A configuration whose provider is not one of the four recognized
identifiers (the onboarding screen offers a Gemini choice that the factory
does not recognize). -/
def demoGeminiConfig : LLMConfig :=
  ⟨"Gemini", "https://gemini.example", "sk-g", "gemini-pro", true⟩

/-- A success body whose message content is the empty string. -/
def emptyContentBody : String :=
  "\x7b\"choices\":[\x7b\"message\":\x7b\"content\":\"\"\x7d\x7d]\x7d"

/-- A success body whose message content is the JSON text
`\x7b"rephrased":"better"\x7d`. -/
def betterContentBody : String :=
  "\x7b\"choices\":[\x7b\"message\":\x7b\"content\":\"\x7b\\\"rephrased\\\":\\\"better\\\"\x7d\"\x7d\x7d]\x7d"

/-- A HuggingFace success body whose generated text is a brace-delimited
JSON object followed by trailing text (so the whole content is not valid
JSON). -/
def trailingJsonBody : String :=
  "[\x7b\"generated_text\":\"\x7b\\\"rephrased\\\":\\\"y\\\"\x7d ok\"\x7d]"

/-- The generated text within `trailingJsonBody`. -/
def trailingJsonContent : String := "\x7b\"rephrased\":\"y\"\x7d ok"

/-- The spec's example of a content that is not valid JSON. -/
def plainContent : String := "Just rephrased text, no JSON."

/-- A success body whose message content is `plainContent`. -/
def plainContentBody : String :=
  "\x7b\"choices\":[\x7b\"message\":\x7b\"content\":\"Just rephrased text, no JSON.\"\x7d\x7d]\x7d"

/-- The parsed value of `plainContentBody`. -/
def plainContentData : Json :=
  Json.obj [("choices", Json.arr
    [Json.obj [("message", Json.obj [("content", Json.str plainContent)])]])]

/-- A Local response object whose `response` field is absent and whose
`output` field holds text. -/
def outputOnlyData : Json := Json.obj [("output", Json.str "hi")]

/-- Whether a JavaScript value is a non-empty string. -/
def isNonemptyStrB : Option Json → Bool
  | some (Json.str s) => !s.isEmpty
  | _ => false

/-- Error/success shape of an outcome: the error message and whether the
rephrased value is a non-empty string. -/
def successShape (o : RephraseOutcome) : Option String × Bool :=
  (o.response.error, isNonemptyStrB o.response.rephrased)

/-- The rephrased value of an outcome. -/
def rephrasedOf (o : RephraseOutcome) : Option Json := o.response.rephrased

/-- The model list of a `listModels` outcome. -/
def modelsOf (o : ListModelsOutcome) : List (Option Json) := o.models

/-- The field names of a request's JSON body object. -/
def bodyKeys (r : HttpRequest) : List String :=
  match r.body with
  | some (Json.obj fields) => fields.map Prod.fst
  | _ => []

/-- The outcome every adapter returns for a non-success, non-retried
status. -/
def apiErrorOutcome (req : HttpRequest) (status : Nat) : RephraseOutcome :=
  ⟨⟨some (Json.str ""), some ("API error: " ++ toString status)⟩, [req], []⟩

/-- The outcome every adapter returns when `fetch` rejects. -/
def fetchErrorOutcome (req : HttpRequest) (msg : String) : RephraseOutcome :=
  ⟨⟨some (Json.str ""), some msg⟩, [req], []⟩

/-! ## Helper lemmas -/

/-- The inner extraction of the chat-based variants never sets an error. -/
theorem chatExtract_error_none (content : Option Json) : (chatExtract content).error = none := by
  cases h : jsonParse (jsToString content) with
  | none => simp [chatExtract, h]
  | some p =>
    cases h2 : jsGetField (some p) "rephrased" with
    | error e => simp [chatExtract, h, h2]
    | ok r => simp [chatExtract, h, h2]

/-- The inner extraction of the HuggingFace variant never sets an error. -/
theorem hfExtract_error_none (content : Option Json) : (hfExtract content).error = none := by
  match content with
  | none => rfl
  | some Json.null | some (Json.bool _) | some (Json.num _)
  | some (Json.arr _) | some (Json.obj _) => rfl
  | some (Json.str s) =>
    cases hb : braceSubstring s with
    | none => simp [hfExtract, hb]
    | some m =>
      cases hj : jsonParse m with
      | none => simp [hfExtract, hb, hj]
      | some p =>
        cases h2 : jsGetField (some p) "rephrased" with
        | error e => simp [hfExtract, hb, hj, h2]
        | ok r => simp [hfExtract, hb, hj, h2]

/-- The inner extraction of the Local variant is the same code as the
HuggingFace one. -/
theorem localExtract_eq_hfExtract (content : Option Json) :
    localExtract content = hfExtract content := rfl

/-- The HuggingFace adapter issues exactly one request per `rephrase` call. -/
theorem hfRephrase_single (config : LLMConfig) (text : String)
    (options : Option RephraseOptions) (fr : FetchResult) (rest : List FetchResult) :
    ∃ r, HuggingFaceService.rephrase config text options (fr :: rest) =
      some ⟨r, [HuggingFaceService.request config text options], []⟩ := by
  cases fr with
  | err msg => exact ⟨_, rfl⟩
  | ok status headers body =>
    simp only [HuggingFaceService.rephrase]
    cases h : responseOk status with
    | false => simp only [h, Bool.false_eq_true, if_false]; exact ⟨_, rfl⟩
    | true =>
      simp only [h, if_true]
      cases hj : jsonParse body with
      | none => exact ⟨_, rfl⟩
      | some data =>
        simp only [hj]
        cases hc : hfContent data with
        | error e => simp only [hc]; exact ⟨_, rfl⟩
        | ok content => simp only [hc]; exact ⟨_, rfl⟩

/-- The Azure adapter issues exactly one request per `rephrase` call. -/
theorem azureRephrase_single (config : LLMConfig) (text : String)
    (options : Option RephraseOptions) (fr : FetchResult) (rest : List FetchResult) :
    ∃ r, AzureService.rephrase config text options (fr :: rest) =
      some ⟨r, [AzureService.request config text options], []⟩ := by
  cases fr with
  | err msg => exact ⟨_, rfl⟩
  | ok status headers body =>
    simp only [AzureService.rephrase]
    cases h : responseOk status with
    | false => simp only [h, Bool.false_eq_true, if_false]; exact ⟨_, rfl⟩
    | true =>
      simp only [h, if_true]
      cases hj : jsonParse body with
      | none => exact ⟨_, rfl⟩
      | some data =>
        simp only [hj]
        cases hc : chatContent data with
        | error e => simp only [hc]; exact ⟨_, rfl⟩
        | ok content => simp only [hc]; exact ⟨_, rfl⟩

/-- The Local adapter issues exactly one request per `rephrase` call. -/
theorem localRephrase_single (config : LLMConfig) (text : String)
    (options : Option RephraseOptions) (fr : FetchResult) (rest : List FetchResult) :
    ∃ r, LocalLLMService.rephrase config text options (fr :: rest) =
      some ⟨r, [LocalLLMService.request config text options], []⟩ := by
  cases fr with
  | err msg => exact ⟨_, rfl⟩
  | ok status headers body =>
    simp only [LocalLLMService.rephrase]
    cases h : responseOk status with
    | false => simp only [h, Bool.false_eq_true, if_false]; exact ⟨_, rfl⟩
    | true =>
      simp only [h, if_true]
      cases hj : jsonParse body with
      | none => exact ⟨_, rfl⟩
      | some data =>
        simp only [hj]
        cases hc : localContent data with
        | error e => simp only [hc]; exact ⟨_, rfl⟩
        | ok content => simp only [hc]; exact ⟨_, rfl⟩

/-! ## Claim C10 -/

/-- Claim C10: for every configuration and trace, the HuggingFace-compatible
variant's `listModels` performs no network call (its request log is empty)
and returns the same fixed list of seven model identifiers, starting with
`meta-llama/Meta-Llama-3-8B`; the result is never empty and is independent
of the configured endpoint, credential, and model. -/
theorem claim10_hf_fixed_models :
    (∀ (config : LLMConfig) (trace : List FetchResult),
      HuggingFaceService.listModels config trace = some ⟨hfRecommendedModels, []⟩)
    ∧ hfRecommendedModels.length = 7
    ∧ hfRecommendedModels.head? = some (some (Json.str "meta-llama/Meta-Llama-3-8B"))
    ∧ hfRecommendedModels ≠ [] := by
  refine ⟨fun config trace => rfl, rfl, rfl, ?_⟩
  intro h
  exact absurd (congrArg List.length h) (by decide)

/-! ## Claim C6 -/

/-- Claim C6: the factory selects the adapter by exact match on the provider
string; each of the four recognized identifiers yields its corresponding
variant, and any unrecognized provider value yields the OpenAI-compatible
variant. -/
theorem claim6_factory_selection (config : LLMConfig) :
    (config.provider = LLMProvider.OpenAI →
      LLMServiceFactory.createService config = OpenAIService config)
    ∧ (config.provider = LLMProvider.HuggingFace →
      LLMServiceFactory.createService config = HuggingFaceService config)
    ∧ (config.provider = LLMProvider.Azure →
      LLMServiceFactory.createService config = AzureService config)
    ∧ (config.provider = LLMProvider.Local →
      LLMServiceFactory.createService config = LocalLLMService config)
    ∧ (config.provider ≠ LLMProvider.OpenAI → config.provider ≠ LLMProvider.HuggingFace →
      config.provider ≠ LLMProvider.Azure → config.provider ≠ LLMProvider.Local →
      LLMServiceFactory.createService config = OpenAIService config) := by
  refine ⟨fun h => ?_, fun h => ?_, fun h => ?_, fun h => ?_, fun h1 h2 h3 h4 => ?_⟩
  · simp [LLMServiceFactory.createService, h]
  · simp [LLMServiceFactory.createService, h, LLMProvider.OpenAI, LLMProvider.HuggingFace]
  · simp [LLMServiceFactory.createService, h, LLMProvider.OpenAI, LLMProvider.HuggingFace,
      LLMProvider.Azure]
  · simp [LLMServiceFactory.createService, h, LLMProvider.OpenAI, LLMProvider.HuggingFace,
      LLMProvider.Azure, LLMProvider.Local]
  · simp [LLMServiceFactory.createService, h1, h2, h3, h4]

/-- Witness for C6: the unrecognized provider `"Gemini"` falls back to the
OpenAI-compatible adapter. -/
theorem claim6_witness :
    LLMServiceFactory.createService demoGeminiConfig = OpenAIService demoGeminiConfig :=
  (claim6_factory_selection demoGeminiConfig).2.2.2.2
    (by decide) (by decide) (by decide) (by decide)

/-! ## Claim C7 -/

/-- Counterexample to C7 as stated: at a concrete configuration and text,
the OpenAI-compatible request body carries a `model` field that the Azure
request body does not carry, so the bodies do not have the same fields. -/
theorem claim7_counterexample :
    bodyKeys (OpenAIService.request demoConfig "hi" none) =
      ["model", "messages", "temperature", "response_format"]
    ∧ bodyKeys (AzureService.request demoConfig "hi" none) =
      ["messages", "temperature", "response_format"]
    ∧ (["model", "messages", "temperature", "response_format"] ≠
        ["messages", "temperature", "response_format"] : Prop) :=
  ⟨rfl, rfl, by decide⟩

/-- Claim C7 (amended): the Azure request equals the OpenAI-compatible one
in method and in all body fields except that the OpenAI body carries one
extra leading `model` field (Azure pins the deployment in the URL path
instead); they differ in the authentication header (`api-key` versus
`Authorization: Bearer`) and the URL path (deployments path with the pinned
api-version). -/
theorem claim7_azure_request_shape (config : LLMConfig) (text : String)
    (options : Option RephraseOptions) :
    (AzureService.request config text options).method =
      (OpenAIService.request config text options).method
    ∧ (OpenAIService.request config text options).url = config.apiUrl ++ "/chat/completions"
    ∧ (AzureService.request config text options).url =
        config.apiUrl ++ "/openai/deployments/" ++ config.modelName ++
          "/chat/completions?api-version=" ++ azureApiVersion
    ∧ (OpenAIService.request config text options).headers =
        [("Authorization", "Bearer " ++ config.apiKey), ("Content-Type", "application/json")]
    ∧ (AzureService.request config text options).headers =
        [("api-key", config.apiKey), ("Content-Type", "application/json")]
    ∧ (∃ fields, (AzureService.request config text options).body = some (Json.obj fields)
        ∧ (OpenAIService.request config text options).body =
            some (Json.obj (("model", Json.str config.modelName) :: fields))) :=
  ⟨rfl, rfl, rfl, rfl, rfl, ⟨_, rfl, rfl⟩⟩

/-! ## Claim C4 -/

/-- Claim C4: every adapter variant, on a non-success HTTP status other
than 429, returns empty rephrased text with the non-empty error message
`API error: <status>`, issuing exactly one request and sleeping never. -/
theorem claim4_http_error_no_retry (config : LLMConfig) (text : String)
    (options : Option RephraseOptions) (status : Nat) (headers : List (String × String))
    (body : String) (rest : List FetchResult)
    (hok : responseOk status = false) (h429 : status ≠ 429) :
    OpenAIService.rephrase config text options (FetchResult.ok status headers body :: rest) =
      some (apiErrorOutcome (OpenAIService.request config text options) status)
    ∧ HuggingFaceService.rephrase config text options (FetchResult.ok status headers body :: rest) =
      some (apiErrorOutcome (HuggingFaceService.request config text options) status)
    ∧ AzureService.rephrase config text options (FetchResult.ok status headers body :: rest) =
      some (apiErrorOutcome (AzureService.request config text options) status)
    ∧ LocalLLMService.rephrase config text options (FetchResult.ok status headers body :: rest) =
      some (apiErrorOutcome (LocalLLMService.request config text options) status)
    ∧ ("API error: " ++ toString status) ≠ "" := by
  refine ⟨?_, ?_, ?_, ?_, ?_⟩
  · simp [OpenAIService.rephrase, hok, h429, apiErrorOutcome]
  · simp [HuggingFaceService.rephrase, hok, apiErrorOutcome]
  · simp [AzureService.rephrase, hok, apiErrorOutcome]
  · simp [LocalLLMService.rephrase, hok, apiErrorOutcome]
  · intro hcontra
    have h2 : ("API error: " ++ toString status).length = 0 := by rw [hcontra]; rfl
    rw [String.length_append] at h2
    have h3 : ("API error: " : String).length = 11 := rfl
    omega

/-- Witness for C4 at HTTP 500. -/
theorem claim4_witness :
    OpenAIService.rephrase demoConfig "hi" none [FetchResult.ok 500 [] "oops"] =
      some (apiErrorOutcome (OpenAIService.request demoConfig "hi" none) 500)
    ∧ HuggingFaceService.rephrase demoConfig "hi" none [FetchResult.ok 500 [] "oops"] =
      some (apiErrorOutcome (HuggingFaceService.request demoConfig "hi" none) 500)
    ∧ AzureService.rephrase demoConfig "hi" none [FetchResult.ok 500 [] "oops"] =
      some (apiErrorOutcome (AzureService.request demoConfig "hi" none) 500)
    ∧ LocalLLMService.rephrase demoConfig "hi" none [FetchResult.ok 500 [] "oops"] =
      some (apiErrorOutcome (LocalLLMService.request demoConfig "hi" none) 500)
    ∧ ("API error: " ++ toString 500) ≠ "" :=
  claim4_http_error_no_retry demoConfig "hi" none 500 [] "oops" [] (by decide) (by decide)

/-! ## Claim C2 -/

/-- Counterexample to C2 as stated: the Local variant's `listModels`, on a
network error, returns the one-element list holding the configured model
name — not an empty sequence. -/
theorem claim2_counterexample :
    (LocalLLMService.listModels demoConfig [FetchResult.err "network down"]).map modelsOf =
      some [some (Json.str "gpt-4o-mini")]
    ∧ (LocalLLMService.listModels demoConfig [FetchResult.err "network down"]).map
        (fun o => o.models.length) = some 1
    ∧ (1 : Nat) ≠ 0 :=
  ⟨rfl, rfl, by decide⟩

/-- Claim C2 (amended): on any `listModels` failure — network error,
non-success status, or malformed body — the OpenAI and Azure variants return
an empty sequence, the Local variant returns the one-element list
`[config.modelName]`, and no variant raises; the HuggingFace variant cannot
fail at all, returning its fixed list even against a failing trace. -/
theorem claim2_list_models_failures (config : LLMConfig) (msg body : String) (status : Nat)
    (headers : List (String × String)) (rest : List FetchResult)
    (hok : responseOk status = false) (hbad : jsonParse body = none) :
    (OpenAIService.listModels config (FetchResult.err msg :: rest) =
        some ⟨[], [OpenAIService.listRequest config]⟩
      ∧ OpenAIService.listModels config (FetchResult.ok status headers body :: rest) =
        some ⟨[], [OpenAIService.listRequest config]⟩
      ∧ OpenAIService.listModels config (FetchResult.ok 200 headers body :: rest) =
        some ⟨[], [OpenAIService.listRequest config]⟩)
    ∧ (AzureService.listModels config (FetchResult.err msg :: rest) =
        some ⟨[], [AzureService.listRequest config]⟩
      ∧ AzureService.listModels config (FetchResult.ok status headers body :: rest) =
        some ⟨[], [AzureService.listRequest config]⟩
      ∧ AzureService.listModels config (FetchResult.ok 200 headers body :: rest) =
        some ⟨[], [AzureService.listRequest config]⟩)
    ∧ (LocalLLMService.listModels config (FetchResult.err msg :: rest) =
        some ⟨[some (Json.str config.modelName)], [LocalLLMService.listRequest config]⟩
      ∧ LocalLLMService.listModels config (FetchResult.ok status headers body :: rest) =
        some ⟨[some (Json.str config.modelName)], [LocalLLMService.listRequest config]⟩
      ∧ LocalLLMService.listModels config (FetchResult.ok 200 headers body :: rest) =
        some ⟨[some (Json.str config.modelName)], [LocalLLMService.listRequest config]⟩)
    ∧ HuggingFaceService.listModels config (FetchResult.err msg :: rest) =
        some ⟨hfRecommendedModels, []⟩ := by
  refine ⟨⟨rfl, ?_, ?_⟩, ⟨rfl, ?_, ?_⟩, ⟨rfl, ?_, ?_⟩, rfl⟩
  · simp [OpenAIService.listModels, hok]
  · simp [OpenAIService.listModels, responseOk, hbad]
  · simp [AzureService.listModels, hok]
  · simp [AzureService.listModels, responseOk, hbad]
  · simp [LocalLLMService.listModels, hok]
  · simp [LocalLLMService.listModels, responseOk, hbad]

/-- Witness for C2 at a network error, HTTP 500, and the unparseable body
`"oops"`. -/
theorem claim2_witness :
    (OpenAIService.listModels demoConfig [FetchResult.err "down"] =
        some ⟨[], [OpenAIService.listRequest demoConfig]⟩
      ∧ OpenAIService.listModels demoConfig [FetchResult.ok 500 [] "oops"] =
        some ⟨[], [OpenAIService.listRequest demoConfig]⟩
      ∧ OpenAIService.listModels demoConfig [FetchResult.ok 200 [] "oops"] =
        some ⟨[], [OpenAIService.listRequest demoConfig]⟩)
    ∧ (AzureService.listModels demoConfig [FetchResult.err "down"] =
        some ⟨[], [AzureService.listRequest demoConfig]⟩
      ∧ AzureService.listModels demoConfig [FetchResult.ok 500 [] "oops"] =
        some ⟨[], [AzureService.listRequest demoConfig]⟩
      ∧ AzureService.listModels demoConfig [FetchResult.ok 200 [] "oops"] =
        some ⟨[], [AzureService.listRequest demoConfig]⟩)
    ∧ (LocalLLMService.listModels demoConfig [FetchResult.err "down"] =
        some ⟨[some (Json.str demoConfig.modelName)], [LocalLLMService.listRequest demoConfig]⟩
      ∧ LocalLLMService.listModels demoConfig [FetchResult.ok 500 [] "oops"] =
        some ⟨[some (Json.str demoConfig.modelName)], [LocalLLMService.listRequest demoConfig]⟩
      ∧ LocalLLMService.listModels demoConfig [FetchResult.ok 200 [] "oops"] =
        some ⟨[some (Json.str demoConfig.modelName)], [LocalLLMService.listRequest demoConfig]⟩)
    ∧ HuggingFaceService.listModels demoConfig [FetchResult.err "down"] =
        some ⟨hfRecommendedModels, []⟩ :=
  claim2_list_models_failures demoConfig "down" "oops" 500 [] [] (by decide) rfl

/-! ## Claim C3 -/

/-- Claim C3: the OpenAI-compatible variant, on HTTP 429, sleeps for the
`Retry-After` duration (5000 ms when the header is absent) and re-issues the
identical request once per 429 against the rest of the trace; in the spec's
scenario — a 429 with `Retry-After: 2` followed by a 200 — it sleeps 2000 ms
and returns the success result of the second call.  No other variant
retries: each issues exactly one request per call on every trace. -/
theorem claim3_retry_on_429 :
    (∀ (config : LLMConfig) (text : String) (options : Option RephraseOptions)
        (headers : List (String × String)) (body : String) (rest : List FetchResult),
      OpenAIService.rephrase config text options (FetchResult.ok 429 headers body :: rest) =
        (OpenAIService.rephrase config text options rest).map
          (fun o => ⟨o.response, OpenAIService.request config text options :: o.requests,
            retryDelayMs headers :: o.delays⟩))
    ∧ (∀ headers, getHeader headers "Retry-After" = none → retryDelayMs headers = 5000)
    ∧ OpenAIService.rephrase demoConfig "hello" none
        [FetchResult.ok 429 [("Retry-After", "2")] "", FetchResult.ok 200 [] betterContentBody] =
        some ⟨⟨some (Json.str "better"), none⟩,
          [OpenAIService.request demoConfig "hello" none,
           OpenAIService.request demoConfig "hello" none], [2000]⟩
    ∧ (∀ (config : LLMConfig) (text : String) (options : Option RephraseOptions)
        (fr : FetchResult) (rest : List FetchResult), ∃ r,
        HuggingFaceService.rephrase config text options (fr :: rest) =
          some ⟨r, [HuggingFaceService.request config text options], []⟩)
    ∧ (∀ (config : LLMConfig) (text : String) (options : Option RephraseOptions)
        (fr : FetchResult) (rest : List FetchResult), ∃ r,
        AzureService.rephrase config text options (fr :: rest) =
          some ⟨r, [AzureService.request config text options], []⟩)
    ∧ (∀ (config : LLMConfig) (text : String) (options : Option RephraseOptions)
        (fr : FetchResult) (rest : List FetchResult), ∃ r,
        LocalLLMService.rephrase config text options (fr :: rest) =
          some ⟨r, [LocalLLMService.request config text options], []⟩) := by
  refine ⟨?_, ?_, ?_, hfRephrase_single, azureRephrase_single, localRephrase_single⟩
  · intro config text options headers body rest
    simp [OpenAIService.rephrase, responseOk]
  · intro headers h
    unfold retryDelayMs
    rw [h]
    rfl
  · rfl

/-- Witness for C3: with no `Retry-After` header the backoff is 5000 ms. -/
theorem claim3_witness : retryDelayMs [] = 5000 :=
  claim3_retry_on_429.2.1 [] rfl

/-! ## Claim C1 -/

/-- Counterexample to C1 as stated: an HTTP 200 whose message content is the
empty string yields a result with no error message and with `rephrased`
equal to the empty string (the raw-content fallback), so success does not
imply a non-empty rephrased text. -/
theorem claim1_counterexample :
    (OpenAIService.rephrase demoConfig "hello" none [FetchResult.ok 200 [] emptyContentBody]).map
      successShape = some (none, false) := rfl

/-- Claim C1 (amended): for every adapter variant, a failed call returns the
empty string as the rephrased text together with a present error message;
a successful call never carries an error message, but its rephrased text may
be empty (or not a string at all) when the provider returns degenerate
content. -/
theorem claim1_result_exclusivity :
    (∀ (config : LLMConfig) (text : String) (options : Option RephraseOptions)
        (trace : List FetchResult) (out : RephraseOutcome),
      OpenAIService.rephrase config text options trace = some out →
      out.response.error.isSome → out.response.rephrased = some (Json.str ""))
    ∧ (∀ (config : LLMConfig) (text : String) (options : Option RephraseOptions)
        (trace : List FetchResult) (out : RephraseOutcome),
      HuggingFaceService.rephrase config text options trace = some out →
      out.response.error.isSome → out.response.rephrased = some (Json.str ""))
    ∧ (∀ (config : LLMConfig) (text : String) (options : Option RephraseOptions)
        (trace : List FetchResult) (out : RephraseOutcome),
      AzureService.rephrase config text options trace = some out →
      out.response.error.isSome → out.response.rephrased = some (Json.str ""))
    ∧ (∀ (config : LLMConfig) (text : String) (options : Option RephraseOptions)
        (trace : List FetchResult) (out : RephraseOutcome),
      LocalLLMService.rephrase config text options trace = some out →
      out.response.error.isSome → out.response.rephrased = some (Json.str "")) := by
  refine ⟨?_, ?_, ?_, ?_⟩
  · intro config text options trace
    induction trace with
    | nil => intro out h hsome; exact absurd h (by simp [OpenAIService.rephrase])
    | cons fr rest ih =>
      intro out h hsome
      cases fr with
      | err msg =>
        simp only [OpenAIService.rephrase, Option.some.injEq] at h
        subst h; rfl
      | ok status headers body =>
        simp only [OpenAIService.rephrase] at h
        cases hst : responseOk status with
        | true =>
          simp only [hst, if_true] at h
          cases hj : jsonParse body with
          | none => simp only [hj, Option.some.injEq] at h; subst h; rfl
          | some data =>
            simp only [hj] at h
            cases hc : chatContent data with
            | error e => simp only [hc, Option.some.injEq] at h; subst h; rfl
            | ok content =>
              simp only [hc, Option.some.injEq] at h
              subst h
              simp [chatExtract_error_none] at hsome
        | false =>
          simp only [hst, Bool.false_eq_true, if_false] at h
          by_cases h429 : status = 429
          · subst h429
            rw [if_pos rfl] at h
            rw [Option.map_eq_some'] at h
            obtain ⟨o, ho, hout⟩ := h
            subst hout
            exact ih o ho hsome
          · rw [if_neg h429, Option.some.injEq] at h
            subst h; rfl
  · intro config text options trace out h hsome
    match trace with
    | [] => exact absurd h (by simp [HuggingFaceService.rephrase])
    | fr :: rest =>
      cases fr with
      | err msg =>
        simp only [HuggingFaceService.rephrase, Option.some.injEq] at h
        subst h; rfl
      | ok status headers body =>
        simp only [HuggingFaceService.rephrase] at h
        cases hst : responseOk status with
        | true =>
          simp only [hst, if_true] at h
          cases hj : jsonParse body with
          | none => simp only [hj, Option.some.injEq] at h; subst h; rfl
          | some data =>
            simp only [hj] at h
            cases hc : hfContent data with
            | error e => simp only [hc, Option.some.injEq] at h; subst h; rfl
            | ok content =>
              simp only [hc, Option.some.injEq] at h
              subst h
              simp [hfExtract_error_none] at hsome
        | false =>
          simp only [hst, Bool.false_eq_true, if_false, Option.some.injEq] at h
          subst h; rfl
  · intro config text options trace out h hsome
    match trace with
    | [] => exact absurd h (by simp [AzureService.rephrase])
    | fr :: rest =>
      cases fr with
      | err msg =>
        simp only [AzureService.rephrase, Option.some.injEq] at h
        subst h; rfl
      | ok status headers body =>
        simp only [AzureService.rephrase] at h
        cases hst : responseOk status with
        | true =>
          simp only [hst, if_true] at h
          cases hj : jsonParse body with
          | none => simp only [hj, Option.some.injEq] at h; subst h; rfl
          | some data =>
            simp only [hj] at h
            cases hc : chatContent data with
            | error e => simp only [hc, Option.some.injEq] at h; subst h; rfl
            | ok content =>
              simp only [hc, Option.some.injEq] at h
              subst h
              simp [chatExtract_error_none] at hsome
        | false =>
          simp only [hst, Bool.false_eq_true, if_false, Option.some.injEq] at h
          subst h; rfl
  · intro config text options trace out h hsome
    match trace with
    | [] => exact absurd h (by simp [LocalLLMService.rephrase])
    | fr :: rest =>
      cases fr with
      | err msg =>
        simp only [LocalLLMService.rephrase, Option.some.injEq] at h
        subst h; rfl
      | ok status headers body =>
        simp only [LocalLLMService.rephrase] at h
        cases hst : responseOk status with
        | true =>
          simp only [hst, if_true] at h
          cases hj : jsonParse body with
          | none => simp only [hj, Option.some.injEq] at h; subst h; rfl
          | some data =>
            simp only [hj] at h
            cases hc : localContent data with
            | error e => simp only [hc, Option.some.injEq] at h; subst h; rfl
            | ok content =>
              simp only [hc, Option.some.injEq] at h
              subst h
              rw [localExtract_eq_hfExtract] at hsome
              simp [hfExtract_error_none] at hsome
        | false =>
          simp only [hst, Bool.false_eq_true, if_false, Option.some.injEq] at h
          subst h; rfl

/-- Witness for C1: a network error yields empty rephrased text with the
error message present. -/
theorem claim1_witness :
    (fetchErrorOutcome (OpenAIService.request demoConfig "hi" none)
      "network down").response.rephrased = some (Json.str "") :=
  claim1_result_exclusivity.1 demoConfig "hi" none [FetchResult.err "network down"] _ rfl rfl

/-! ## Claim C5 -/

/-- Counterexample to C5 as stated: for the HuggingFace variant, a generated
text that is not valid JSON as a whole but contains a brace-delimited JSON
object is not returned verbatim — the object's `rephrased` field is returned
instead. -/
theorem claim5_counterexample :
    jsonParse trailingJsonContent = none
    ∧ (HuggingFaceService.rephrase demoConfig "hello" none
        [FetchResult.ok 200 [] trailingJsonBody]).map rephrasedOf =
      some (some (Json.str "y"))
    ∧ ("y" : String) ≠ trailingJsonContent :=
  ⟨rfl, rfl, by decide⟩

/-- Claim C5 (amended): when the HTTP call succeeds and the extracted
content is a string that is not valid JSON, the OpenAI and Azure variants
return it verbatim as the rephrased text with no error; the HuggingFace and
Local variants do so provided the content contains no brace-delimited
substring (otherwise that substring is parsed and its `rephrased` field may
be returned instead); and in every variant a malformed content is never
surfaced as an error. -/
theorem claim5_raw_content_fallback (config : LLMConfig) (text : String)
    (options : Option RephraseOptions) (status : Nat) (headers : List (String × String))
    (body : String) (rest : List FetchResult) (data : Json) (s : String)
    (hok : responseOk status = true) (hbody : jsonParse body = some data)
    (hnj : jsonParse s = none) :
    (chatContent data = Except.ok (some (Json.str s)) →
      (OpenAIService.rephrase config text options (FetchResult.ok status headers body :: rest) =
        some ⟨⟨some (Json.str s), none⟩, [OpenAIService.request config text options], []⟩
      ∧ AzureService.rephrase config text options (FetchResult.ok status headers body :: rest) =
        some ⟨⟨some (Json.str s), none⟩, [AzureService.request config text options], []⟩))
    ∧ (hfContent data = Except.ok (some (Json.str s)) → braceSubstring s = none →
      HuggingFaceService.rephrase config text options (FetchResult.ok status headers body :: rest) =
        some ⟨⟨some (Json.str s), none⟩, [HuggingFaceService.request config text options], []⟩)
    ∧ (localContent data = Except.ok (some (Json.str s)) → braceSubstring s = none →
      LocalLLMService.rephrase config text options (FetchResult.ok status headers body :: rest) =
        some ⟨⟨some (Json.str s), none⟩, [LocalLLMService.request config text options], []⟩)
    ∧ (∀ content : Option Json, (chatExtract content).error = none
        ∧ (hfExtract content).error = none ∧ (localExtract content).error = none) := by
  refine ⟨fun hc => ⟨?_, ?_⟩, fun hc hb => ?_, fun hc hb => ?_,
    fun content => ⟨chatExtract_error_none content, hfExtract_error_none content, ?_⟩⟩
  · simp only [OpenAIService.rephrase, hok, if_true, hbody, hc]
    simp [chatExtract, jsToString, hnj]
  · simp only [AzureService.rephrase, hok, if_true, hbody, hc]
    simp [chatExtract, jsToString, hnj]
  · simp only [HuggingFaceService.rephrase, hok, if_true, hbody, hc]
    simp [hfExtract, hb]
  · simp only [LocalLLMService.rephrase, hok, if_true, hbody, hc]
    simp [localExtract, hb]
  · rw [localExtract_eq_hfExtract]
    exact hfExtract_error_none content

/-- Witness for C5: the spec's example content
`"Just rephrased text, no JSON."` comes back verbatim with no error. -/
theorem claim5_witness :
    OpenAIService.rephrase demoConfig "hi" none [FetchResult.ok 200 [] plainContentBody] =
      some ⟨⟨some (Json.str plainContent), none⟩, [OpenAIService.request demoConfig "hi" none], []⟩
    ∧ AzureService.rephrase demoConfig "hi" none [FetchResult.ok 200 [] plainContentBody] =
      some ⟨⟨some (Json.str plainContent), none⟩, [AzureService.request demoConfig "hi" none], []⟩ :=
  (claim5_raw_content_fallback demoConfig "hi" none 200 [] plainContentBody [] plainContentData
    plainContent rfl rfl rfl).1 rfl

/-! ## Claim C8 -/

/-- Claim C8: the Local variant picks the generated text by JavaScript
truthiness in priority order — `response`, then `output`, then
`generated_text` — falling back to the empty string; and its subsequent
extraction is exactly the HuggingFace variant's brace-substring
extraction. -/
theorem claim8_local_content_priority :
    (∀ (data : Json) (r o g : Option Json),
      jsGetField (some data) "response" = Except.ok r →
      jsGetField (some data) "output" = Except.ok o →
      jsGetField (some data) "generated_text" = Except.ok g →
      localContent data = Except.ok
        (if jsTruthy r then r else if jsTruthy o then o
         else if jsTruthy g then g else some (Json.str "")))
    ∧ (∀ content : Option Json, localExtract content = hfExtract content) := by
  constructor
  · intro data r o g hr ho hg
    unfold localContent
    rw [hr, ho, hg]
    by_cases h1 : jsTruthy r
    · simp [h1]
    · by_cases h2 : jsTruthy o
      · simp [h1, h2]
      · by_cases h3 : jsTruthy g <;> simp [h1, h2, h3]
  · exact localExtract_eq_hfExtract

/-- Witness for C8: with only `output` present, the `output` text is
selected. -/
theorem claim8_witness :
    localContent outputOnlyData = Except.ok
      (if jsTruthy (none : Option Json) then none
       else if jsTruthy (some (Json.str "hi")) then some (Json.str "hi")
       else if jsTruthy (none : Option Json) then none else some (Json.str "")) :=
  claim8_local_content_priority.1 outputOnlyData none (some (Json.str "hi")) none rfl rfl rfl

/-! ## Claim C9 -/


/-- Parsing the printed two-digit hexadecimal escape of a control character
recovers its code point. -/
theorem hexfour_escape : ∀ n : Nat, n < 32 →
    hex4 '0' '0' (hexDigit (n / 16)) (hexDigit (n % 16)) = some n := by decide

/-- The string lexer inverts `JSON.stringify` escaping: parsing an escaped
string body followed by a closing quote recovers the characters. -/
theorem parseStringBody_escape (cs : List Char) (rest : List Char) :
    parseStringBody (escapeChars cs ++ '"' :: rest) = some (cs, rest) := by
  induction cs with
  | nil =>
    simp only [escapeChars, List.flatMap_nil, List.nil_append]
    rw [parseStringBody.eq_def]
    simp
  | cons c cs ih =>
    have hstep : escapeChars (c :: cs) = escapeChar c ++ escapeChars cs := by
      simp [escapeChars]
    rw [hstep, List.append_assoc]
    by_cases h1 : c = '"'
    · subst h1; simp [escapeChar, parseStringBody, simpleEscape, ih]
    · by_cases h2 : c = '\\'
      · subst h2; simp [escapeChar, parseStringBody, simpleEscape, ih]
      · by_cases h3 : c = Char.ofNat 8
        · subst h3; simp [escapeChar, parseStringBody, simpleEscape, ih]
        · by_cases h4 : c = Char.ofNat 12
          · subst h4; simp [escapeChar, parseStringBody, simpleEscape, ih]
          · by_cases h5 : c = '\n'
            · subst h5; simp [escapeChar, parseStringBody, simpleEscape, ih]
            · by_cases h6 : c = '\r'
              · subst h6; simp [escapeChar, parseStringBody, simpleEscape, ih]
              · by_cases h7 : c = '\t'
                · subst h7; simp [escapeChar, parseStringBody, simpleEscape, ih]
                · by_cases h8 : c.toNat < 32
                  · have hy := hexfour_escape c.toNat h8
                    simp [escapeChar, h1, h2, h3, h4, h5, h6, h7, h8, parseStringBody,
                      hy, ih, Char.ofNat_toNat]
                  · have hch : escapeChar c = [c] := by
                      simp [escapeChar, h1, h2, h3, h4, h5, h6, h7, h8]
                    rw [hch, List.singleton_append, parseStringBody.eq_def]
                    simp [h1, h2, h8, ih]

/-- Parsing a printed (quoted, escaped) string value yields that string. -/
theorem parseValue_string (f : Nat) (s : String) (rest : List Char) :
    parseValue (f + 1) ('"' :: (escapeChars s.data ++ '"' :: rest)) = some (Json.str s, rest) := by
  rw [parseValue.eq_def]
  simp only [skipWs, List.dropWhile_cons]
  simp only [show jsonWs '"' = false from rfl, Bool.false_eq_true, if_false]
  simp only [show ('"' = lbrace) = False from by simp [lbrace], if_false,
    show ('"' = '[') = False from by simp, eq_self_iff_true, if_true]
  rw [parseStringBody_escape]
  rfl

/-- Parsing the keyword `true` yields the boolean value. -/
theorem parseValue_true (f : Nat) (rest : List Char) :
    parseValue (f + 1) ('t' :: 'r' :: 'u' :: 'e' :: rest) = some (Json.bool true, rest) := by
  rw [parseValue.eq_def]
  simp [skipWs, jsonWs, lbrace]

/-- Parsing the keyword `false` yields the boolean value. -/
theorem parseValue_false (f : Nat) (rest : List Char) :
    parseValue (f + 1) ('f' :: 'a' :: 'l' :: 's' :: 'e' :: rest) = some (Json.bool false, rest) := by
  rw [parseValue.eq_def]
  simp [skipWs, jsonWs, lbrace]

/-- Parsing one printed string-valued member followed by a comma steps to the
remaining members. -/
theorem parseMembers_strmember (g : Nat) (kcs : List Char) (v : String) (T : List Char) :
    parseMembers (g + 1 + 1)
        ('"' :: (escapeChars kcs ++ '"' :: ':' :: '"' :: (escapeChars v.data ++ '"' :: ',' :: T))) =
      (parseMembers (g + 1) T).map (fun q => ((String.mk kcs, Json.str v) :: q.1, q.2)) := by
  rw [parseMembers.eq_def]
  simp only [skipWs, List.dropWhile_cons, show jsonWs '"' = false from rfl,
    Bool.false_eq_true, if_false, eq_self_iff_true, if_true]
  rw [parseStringBody_escape]
  simp only [List.dropWhile_cons, show jsonWs ':' = false from rfl, Bool.false_eq_true,
    if_false, eq_self_iff_true, if_true]
  rw [parseValue_string]
  simp only [List.dropWhile_cons, show jsonWs ',' = false from rfl, Bool.false_eq_true,
    if_false, eq_self_iff_true, if_true]

/-- Parsing a final `true`-valued member followed by the closing brace. -/
theorem parseMembers_true_last (g : Nat) (kcs : List Char) :
    parseMembers (g + 1 + 1)
        ('"' :: (escapeChars kcs ++ '"' :: ':' :: 't' :: 'r' :: 'u' :: 'e' :: [rbrace])) =
      some ([(String.mk kcs, Json.bool true)], []) := by
  rw [parseMembers.eq_def]
  simp only [skipWs, List.dropWhile_cons, show jsonWs '"' = false from rfl,
    Bool.false_eq_true, if_false, eq_self_iff_true, if_true]
  rw [parseStringBody_escape]
  simp only [List.dropWhile_cons, show jsonWs ':' = false from rfl, Bool.false_eq_true,
    if_false, eq_self_iff_true, if_true]
  rw [parseValue_true]
  have hw : jsonWs rbrace = false := rfl
  simp only [List.dropWhile_cons, hw, Bool.false_eq_true, if_false]
  rw [if_neg (show ¬rbrace = ',' from by decide)]
  simp

/-- Parsing a final `false`-valued member followed by the closing brace. -/
theorem parseMembers_false_last (g : Nat) (kcs : List Char) :
    parseMembers (g + 1 + 1)
        ('"' :: (escapeChars kcs ++ '"' :: ':' :: 'f' :: 'a' :: 'l' :: 's' :: 'e' :: [rbrace])) =
      some ([(String.mk kcs, Json.bool false)], []) := by
  rw [parseMembers.eq_def]
  simp only [skipWs, List.dropWhile_cons, show jsonWs '"' = false from rfl,
    Bool.false_eq_true, if_false, eq_self_iff_true, if_true]
  rw [parseStringBody_escape]
  simp only [List.dropWhile_cons, show jsonWs ':' = false from rfl, Bool.false_eq_true,
    if_false, eq_self_iff_true, if_true]
  rw [parseValue_false]
  have hw : jsonWs rbrace = false := rfl
  simp only [List.dropWhile_cons, hw, Bool.false_eq_true, if_false]
  rw [if_neg (show ¬rbrace = ',' from by decide)]
  simp

/-- The parser inverts the printer on a printed configuration object. -/
theorem parseValue_config (c : LLMConfig) (f : Nat) :
    parseValue (f + 6 + 1) (jsonChars (configToJson c)) = some (configToJson c, []) := by
  obtain ⟨p, u, k, m, b⟩ := c
  cases b
  all_goals
    simp only [configToJson, jsonChars, jsonCharsFields, strChars, List.append_assoc,
      List.cons_append, List.nil_append]
  all_goals
    rw [parseValue.eq_def]
  all_goals
    simp only [skipWs, List.dropWhile_cons, show jsonWs lbrace = false from rfl,
      show jsonWs '"' = false from rfl, Bool.false_eq_true, if_false, eq_self_iff_true, if_true]
  all_goals
    rw [if_neg (show ¬('"' = rbrace) from by decide)]
  all_goals
    rw [show f + 6 = f + 4 + 1 + 1 from rfl, parseMembers_strmember,
      show f + 4 + 1 = f + 3 + 1 + 1 from rfl, parseMembers_strmember,
      show f + 3 + 1 = f + 2 + 1 + 1 from rfl, parseMembers_strmember,
      show f + 2 + 1 = f + 1 + 1 + 1 from rfl, parseMembers_strmember]
  · rw [parseMembers_false_last]
    simp [configToJson]
  · rw [parseMembers_true_last]
    simp [configToJson]

/-- Reading the five fields off the stored configuration object recovers the
configuration. -/
theorem jsonAsConfig_configToJson (c : LLMConfig) : jsonAsConfig (configToJson c) = c := rfl

/-- `JSON.parse` inverts `JSON.stringify` on a configuration object. -/
theorem jsonParse_config (c : LLMConfig) :
    jsonParse (jsonStringify (configToJson c)) = some (configToJson c) := by
  unfold jsonParse jsonStringify
  have hdata : (String.mk (jsonChars (configToJson c))).data = jsonChars (configToJson c) := rfl
  rw [hdata]
  have hlen : 6 ≤ (jsonChars (configToJson c)).length := by
    obtain ⟨p, u, k, m, b⟩ := c
    cases b
    all_goals
      simp only [configToJson, jsonChars, jsonCharsFields, strChars, List.append_assoc,
        List.cons_append, List.nil_append]
    all_goals
      simp [List.length_append, List.length_cons]
    all_goals
      omega
  have hfuel : (jsonChars (configToJson c)).length + 1 =
      ((jsonChars (configToJson c)).length - 6) + 6 + 1 := by omega
  rw [hfuel, parseValue_config]
  rfl

/-- The stored configuration text is never the empty (falsy) string. -/
theorem jsonStringify_config_ne_empty (c : LLMConfig) :
    (jsonStringify (configToJson c)).isEmpty = false := by
  have hchars : jsonChars (configToJson c) =
      lbrace :: (jsonCharsFields
        [("provider", Json.str c.provider), ("apiUrl", Json.str c.apiUrl),
         ("apiKey", Json.str c.apiKey), ("modelName", Json.str c.modelName),
         ("isConfigured", Json.bool c.isConfigured)] ++ [rbrace]) := by
    simp [configToJson, jsonChars]
  have hne : jsonStringify (configToJson c) ≠ "" := by
    intro hcontra
    have hd := congrArg String.data hcontra
    rw [show ("" : String).data = [] from rfl] at hd
    unfold jsonStringify at hd
    rw [show (String.mk (jsonChars (configToJson c))).data = jsonChars (configToJson c) from rfl,
      hchars] at hd
    exact absurd hd (by simp)
  cases hie : (jsonStringify (configToJson c)).isEmpty with
  | false => rfl
  | true => exact absurd ((String.isEmpty_iff _).mp hie) hne

/-- Claim C9: saving a configuration through the storage collaborator and
reloading it yields a structurally identical configuration: the same
provider, apiUrl, apiKey, modelName and isConfigured values, whatever
characters the fields contain. -/
theorem claim9_round_trip (config : LLMConfig) (store : Option String) :
    StorageService.getConfig (StorageService.saveConfig config store) = config := by
  simp only [StorageService.saveConfig, StorageService.getConfig]
  rw [jsonStringify_config_ne_empty]
  simp only [Bool.false_eq_true, if_false]
  rw [jsonParse_config]
  exact jsonAsConfig_configToJson config

/-- Witness for C7: at a concrete configuration the OpenAI URL is the
`/chat/completions` path. -/
theorem claim7_witness :
    (OpenAIService.request demoConfig "hi" none).url =
      demoConfig.apiUrl ++ "/chat/completions" :=
  (claim7_azure_request_shape demoConfig "hi" none).2.1

/-- Witness for C9: the round trip at a concrete configuration. -/
theorem claim9_witness :
    StorageService.getConfig (StorageService.saveConfig demoConfig none) = demoConfig :=
  claim9_round_trip demoConfig none

/-- Witness for C10: the fixed list is returned against the empty trace. -/
theorem claim10_witness :
    HuggingFaceService.listModels demoConfig [] = some ⟨hfRecommendedModels, []⟩ :=
  claim10_hf_fixed_models.1 demoConfig []
